import Mathlib

/-!
Verification of the LSD.law admission-wave notifier (`src/scraper.py`,
`src/config.py`): a shallow embedding of the decode / filter / diff /
persist pipeline, with theorems settling the specification claims.

Python values that flow through the pipeline (JSON-parsed data, decision
records, persisted state) are modelled by `PyVal`.  Numbers are modelled
as integers (the grid counts are integers; floats play no role in any
claim).  Dictionaries are association lists in insertion order, which is
Python dict semantics; equality of keys is structural equality, which
agrees with Python `==` on the string keys used throughout the program.
Calls that can raise are modelled in `Except String`, the error string
naming the Python exception class.

The external library calls (`json.loads`, `base64.b64decode`,
`zlib.decompress`) are opaque collaborators: they are passed in as a
`Codecs` record of fallible functions, and theorems about the decoder
take their behaviour on the relevant inputs as hypotheses.
-/

/-- A Python value, as produced by `json.loads` and manipulated by the
scraper.  `dict` keeps entries in insertion order, as Python does. -/
inductive PyVal where
  | none : PyVal
  | bool : Bool → PyVal
  | int : Int → PyVal
  | str : String → PyVal
  | list : List PyVal → PyVal
  | dict : List (PyVal × PyVal) → PyVal

mutual

/-- Python `==` on modelled values (structural on this fragment; the
`bool`/`int` cross-equality of Python never arises on the string keys the
program compares). -/
def pyEq (a b : PyVal) : Bool :=
  match a, b with
  | .none, .none => true
  | .bool x, .bool y => x == y
  | .int x, .int y => x == y
  | .str x, .str y => x == y
  | .list xs, .list ys => pyEqL xs ys
  | .dict xs, .dict ys => pyEqD xs ys
  | _, _ => false

/-- Python `==` on lists of values. -/
def pyEqL (xs ys : List PyVal) : Bool :=
  match xs, ys with
  | [], [] => true
  | x :: xs, y :: ys => pyEq x y && pyEqL xs ys
  | _, _ => false

/-- Python `==` on dict entry lists. -/
def pyEqD (xs ys : List (PyVal × PyVal)) : Bool :=
  match xs, ys with
  | [], [] => true
  | (k, v) :: xs, (l, w) :: ys => pyEq k l && pyEq v w && pyEqD xs ys
  | _, _ => false

end

namespace PyVal

/-- Python truthiness (`bool(v)`), as used by `outer.get("compressed")`
tests in `_decompress_grid_data`. -/
def truthy : PyVal → Bool
  | .none => false
  | .bool b => b
  | .int n => n != 0
  | .str s => s != ""
  | .list xs => !xs.isEmpty
  | .dict es => !es.isEmpty

end PyVal

/-- First-match lookup in a Python dict's entry list (`d[k]` / `d.get(k)`
semantics; insertion-order association list, keys unique by construction). -/
def dictGet? (es : List (PyVal × PyVal)) (k : PyVal) : Option PyVal :=
  match es with
  | [] => Option.none
  | (k', v) :: rest => if pyEq k' k then some v else dictGet? rest k

/-- Python dict assignment `d[k] = v`: replace in place if the key is
present, else append (insertion order preserved). -/
def dictSet (es : List (PyVal × PyVal)) (k v : PyVal) : List (PyVal × PyVal) :=
  match es with
  | [] => [(k, v)]
  | (k', v') :: rest => if pyEq k' k then (k', v) :: rest else (k', v') :: dictSet rest k v

/-- Python hashability check for dict keys: lists and dicts are
unhashable (`dict(zip(...))` raises `TypeError` on them). -/
def hashable : PyVal → Bool
  | .list _ => false
  | .dict _ => false
  | _ => true

/-- One step of building a Python dict from pairs: insert left to right
with overwrite, raising `TypeError` on an unhashable key. -/
def pyDictInsert (acc : List (PyVal × PyVal)) :
    List (PyVal × PyVal) → Except String (List (PyVal × PyVal))
  | [] => .ok acc
  | (k, v) :: rest =>
    if hashable k then pyDictInsert (dictSet acc k v) rest
    else .error "TypeError: unhashable type"

/-- Build a Python dict from a list of key-value pairs, as `dict(pairs)`
does. -/
def pyDictOfPairs (pairs : List (PyVal × PyVal)) : Except String (List (PyVal × PyVal)) :=
  pyDictInsert [] pairs

/-- Python iteration `for x in v` (as consumed by `zip` and the list
comprehension in `_decompress_grid_data`): lists yield elements, strings
yield one-character strings, dicts yield their keys; other values raise
`TypeError`. -/
def toIterable : PyVal → Except String (List PyVal)
  | .list xs => .ok xs
  | .str s => .ok (s.toList.map fun ch => .str (String.singleton ch))
  | .dict es => .ok (es.map Prod.fst)
  | _ => .error "TypeError: object is not iterable"

mutual

/-- Python `repr(v)` on modelled values (used by `str` on containers;
string escaping inside reprs is not modelled — no claim depends on it). -/
def pyRepr : PyVal → String
  | .none => "None"
  | .bool b => if b then "True" else "False"
  | .int n => toString n
  | .str s => "\x27" ++ s ++ "\x27"
  | .list xs => "[" ++ pyReprL xs ++ "]"
  | .dict es => "\x7b" ++ pyReprD es ++ "\x7d"

/-- Comma-joined reprs of list elements. -/
def pyReprL : List PyVal → String
  | [] => ""
  | [x] => pyRepr x
  | x :: y :: rest => pyRepr x ++ ", " ++ pyReprL (y :: rest)

/-- Comma-joined `key: value` reprs of dict entries. -/
def pyReprD : List (PyVal × PyVal) → String
  | [] => ""
  | [(k, v)] => pyRepr k ++ ": " ++ pyRepr v
  | (k, v) :: e :: rest => pyRepr k ++ ": " ++ pyRepr v ++ ", " ++ pyReprD (e :: rest)

end

/-- Python `str(v)` / f-string formatting of a value. -/
def pyStr : PyVal → String
  | .str s => s
  | v => pyRepr v

/-- Python `str.strip()`: drop whitespace from both ends (defined on the
character list so that it evaluates). -/
def pyStrip (s : String) : String :=
  ⟨((s.data.dropWhile Char.isWhitespace).reverse.dropWhile Char.isWhitespace).reverse⟩

/-- Accumulate a base-10 digit run; `none` on a non-digit. -/
def digitsToNat (cs : List Char) : Option Nat :=
  cs.foldl
    (fun acc c =>
      match acc with
      | some n => if c.isDigit then some (n * 10 + (c.toNat - 48)) else Option.none
      | Option.none => Option.none)
    (some 0)

/-- Python `int(<str>)`: strip whitespace, an optional sign, then a
non-empty digit run (underscore digit grouping is not modelled; no claim
involves string-typed counts). -/
def pyStrToInt (s : String) : Option Int :=
  match (pyStrip s).data with
  | [] => Option.none
  | c :: cs =>
    if c = Char.ofNat 45 then
      if cs.isEmpty then Option.none else (digitsToNat cs).map (fun n => -(n : Int))
    else if c = Char.ofNat 43 then
      if cs.isEmpty then Option.none else (digitsToNat cs).map (fun n => (n : Int))
    else (digitsToNat (c :: cs)).map (fun n => (n : Int))

/-- Python `int(v)`: identity on ints, `False`/`True` to 0/1, numeric
strings parsed (after stripping whitespace); anything else raises. -/
def pyInt : PyVal → Except String Int
  | .int n => .ok n
  | .bool b => .ok (if b then 1 else 0)
  | .str s =>
    match pyStrToInt s with
    | some n => .ok n
    | Option.none => .error "ValueError: invalid literal for int"
  | _ => .error "TypeError: int() argument"

/-- Python `d.get(key, default)` with a string key, raising
`AttributeError` when the receiver is not a dict. -/
def pyGetD (d : PyVal) (key : String) (default : PyVal) : Except String PyVal :=
  match d with
  | .dict es => .ok ((dictGet? es (.str key)).getD default)
  | _ => .error "AttributeError: no attribute get"

/-- Python `d.get(key)` (default `None` → modelled as `Option`), raising
`AttributeError` when the receiver is not a dict. -/
def pyGet? (d : PyVal) (key : String) : Except String (Option PyVal) :=
  match d with
  | .dict es => .ok (dictGet? es (.str key))
  | _ => .error "AttributeError: no attribute get"

/-!
## External codecs

`json.loads`, `base64.b64decode` and `zlib.decompress` are standard
library calls, opaque to this development.  They are modelled as a record
of fallible functions; a raised exception is an `.error`.  Bytes are
modelled as `List Nat`.
-/

/-- The library codec calls used by `_decompress_grid_data`:
`json.loads` on a `str`, `json.loads` on `bytes`, `base64.b64decode`,
and `zlib.decompress`. -/
structure Codecs where
  jsonLoads : String → Except String PyVal
  jsonLoadsBytes : List Nat → Except String PyVal
  b64decode : String → Except String (List Nat)
  zlibDecompress : List Nat → Except String (List Nat)

/-- `dict(zip(schema, row))` from the decoder's list comprehension:
iterate both arguments (raising `TypeError` on non-iterables), zip with
truncation, and build a dict. -/
def dictZip (schema row : PyVal) : Except String PyVal := do
  let ks ← toIterable schema
  let vs ← toIterable row
  let es ← pyDictOfPairs (ks.zip vs)
  return .dict es

/-- The decoder's `[dict(zip(schema, row)) for row in rows]`. -/
def dictZipRows (schema : PyVal) (rows : List PyVal) : Except String (List PyVal) :=
  match rows with
  | [] => .ok []
  | row :: rest => do
    let r ← dictZip schema row
    let rs ← dictZipRows schema rest
    return r :: rs

/-- `_decompress_grid_data(raw_json)` from `src/scraper.py:130-172`:
decode the AG Grid hidden-input value into a list of record values.
Empty string → `[]`; JSON list → itself; non-dict or dict without truthy
`compressed` → `[]`; otherwise unwrap `data`, and when that is itself a
dict with truthy `compressed`, base64-decode / zlib-decompress /
JSON-parse its `data` field; a payload dict holding both `schema` and
`data` is zipped row-wise into dicts; a payload list is returned as is;
anything else → `[]`. -/
def decompress_grid_data (c : Codecs) (raw_json : String) : Except String (List PyVal) := do
  if raw_json = "" then
    return []
  let outer ← c.jsonLoads raw_json
  match outer with
  | .list xs => return xs
  | .dict oes =>
    if !((dictGet? oes (.str "compressed")).getD .none).truthy then
      return []
    let inner := (dictGet? oes (.str "data")).getD (.dict [])
    let payload ←
      match inner with
      | .dict ies =>
        if ((dictGet? ies (.str "compressed")).getD .none).truthy then
          match dictGet? ies (.str "data") with
          | Option.none => Except.error "KeyError: data"
          | some comp =>
            match comp with
            | .str compressed_b64 => do
              let decoded_bytes ← c.b64decode compressed_b64
              let decompressed ← c.zlibDecompress decoded_bytes
              c.jsonLoadsBytes decompressed
            | _ => Except.error "TypeError: argument should be a bytes-like object or ASCII string"
        else pure inner
      | _ => pure inner
    match payload with
    | .dict pes =>
      match dictGet? pes (.str "schema"), dictGet? pes (.str "data") with
      | some schema, some rows => do
        let rowList ← toIterable rows
        dictZipRows schema rowList
      | _, _ =>
        match payload with
        | .list xs => return xs
        | _ => return []
    | .list xs => return xs
    | _ => return []
  | _ => return []

/-!
## Configuration, filter, diff, formatter, state store, runner
-/

/-- The configuration surface read by the scraper (`src/config.py`),
passed explicitly (the source reads the `config` module globally). -/
structure Config where
  SCHOOLS : List String
  POLL_SCHOOLS_ONLY : Bool

/-- The concrete values of `src/config.py`. -/
def configPy : Config :=
  { SCHOOLS := ["University of California—Berkeley",
                "Georgetown University",
                "George Washington University",
                "University of California—Los Angeles",
                "University of California—Irvine"],
    POLL_SCHOOLS_ONLY := true }

/-- Python `str.lower()` (the ASCII case fold of `Char.toLower`,
matching Python on the names involved; defined on the character list so
that it evaluates). -/
def pyLower (s : String) : String := ⟨s.data.map Char.toLower⟩

/-- `d.get("school_name", "").lower()` from the filter's comprehension:
raises when the record is not a dict or its `school_name` is not a
string. -/
def lowerSchool (d : PyVal) : Except String String :=
  match d with
  | .dict es =>
    match (dictGet? es (.str "school_name")).getD (.str "") with
    | .str s => .ok (pyLower s)
    | _ => .error "AttributeError: no attribute lower"
  | _ => .error "AttributeError: no attribute get"

/-- The list comprehension of `filter_decisions`: keep records whose
lowercased `school_name` is in the lowercased watch set, in order. -/
def filterWatched (watched : List String) : List PyVal → Except String (List PyVal)
  | [] => .ok []
  | d :: rest => do
    let s ← lowerSchool d
    let tail ← filterWatched watched rest
    return if watched.contains s then d :: tail else tail

/-- `filter_decisions(decisions)` from `src/scraper.py:179-188`: identity
when `POLL_SCHOOLS_ONLY` is false, else keep only records whose
`school_name` (default `""`), lowercased, is in the set of lowercased
`SCHOOLS` entries. -/
def filter_decisions (cfg : Config) (decisions : List PyVal) : Except String (List PyVal) :=
  if !cfg.POLL_SCHOOLS_ONLY then .ok decisions
  else filterWatched (cfg.SCHOOLS.map pyLower) decisions

/-- `make_key(d)` from `src/scraper.py:195-197`: the f-string
`school_name|result|date` over `d.get(...)` with empty-string defaults. -/
def make_key (d : PyVal) : Except String String := do
  let sn ← pyGetD d "school_name" (.str "")
  let rv ← pyGetD d "result" (.str "")
  let dv ← pyGetD d "date" (.str "")
  return pyStr sn ++ "|" ++ pyStr rv ++ "|" ++ pyStr dv

/-- The dict literal appended to `changes` by `diff_decisions`
(`school_name`, `result`, `date`, `count`, `delta`, `is_new`): a
fixed-shape Python dict, modelled as a structure. -/
structure ChangeEvent where
  school_name : PyVal
  result : PyVal
  date : PyVal
  count : Int
  delta : Int
  is_new : Bool

/-- One iteration of the `for d in current` loop of `diff_decisions`:
`None` when no change is emitted for this record. -/
def diffOne (prev_decisions : PyVal) (d : PyVal) : Except String (Option ChangeEvent) := do
  let key ← make_key d
  let cur_count ← pyInt (← pyGetD d "count" (.int 0))
  let prev ← pyGet? prev_decisions key
  match prev with
  | Option.none =>
    let sn ← pyGetD d "school_name" (.str "Unknown")
    let rv ← pyGetD d "result" (.str "Unknown")
    let dv ← pyGetD d "date" (.str "")
    return some ⟨sn, rv, dv, cur_count, cur_count, true⟩
  | some prevSnap =>
    let prev_count ← pyInt (← pyGetD prevSnap "count" (.int 0))
    if cur_count > prev_count then
      let sn ← pyGetD d "school_name" (.str "Unknown")
      let rv ← pyGetD d "result" (.str "Unknown")
      let dv ← pyGetD d "date" (.str "")
      return some ⟨sn, rv, dv, cur_count, cur_count - prev_count, false⟩
    else
      return Option.none

/-- `diff_decisions(current, prev_decisions)` from
`src/scraper.py:200-238`: walk `current` in order, emitting a change for
a key absent from the previous state or present with a strictly larger
current count. -/
def diff_decisions (current : List PyVal) (prev_decisions : PyVal) :
    Except String (List ChangeEvent) :=
  match current with
  | [] => .ok []
  | d :: rest => do
    let ev ← diffOne prev_decisions d
    let tail ← diff_decisions rest prev_decisions
    return match ev with
    | some e => e :: tail
    | Option.none => tail

/-- One line of `build_message`: the new-wave or updated-wave f-string. -/
def formatChange (c : ChangeEvent) : String :=
  if c.is_new then
    pyStr c.school_name ++ ": " ++ toString c.count ++ " " ++ pyStr c.result ++
      " (" ++ pyStr c.date ++ ")"
  else
    pyStr c.school_name ++ ": +" ++ toString c.delta ++ " " ++ pyStr c.result ++
      " (now " ++ toString c.count ++ ", " ++ pyStr c.date ++ ")"

/-- `build_message(changes)` from `src/scraper.py:245-260`: one line per
change, newline-joined. -/
def build_message (changes : List ChangeEvent) : String :=
  String.intercalate "\n" (changes.map formatChange)

/-- `load_state()` from `src/scraper.py:37-43`, the state file modelled
as `Option String` (`none` = file absent): parse the stripped text when
non-empty, else the empty dict. -/
def load_state (c : Codecs) (stateFile : Option String) : Except String PyVal :=
  match stateFile with
  | some text =>
    if pyStrip text ≠ "" then c.jsonLoads (pyStrip text)
    else .ok (.dict [])
  | Option.none => .ok (.dict [])

/-- One iteration of the `for d in filtered` snapshot-building loop of
`main` (`src/scraper.py:321-329`): the key and the persisted entry. -/
def snapshotEntry (d : PyVal) : Except String (String × PyVal) := do
  let key ← make_key d
  let sn ← pyGetD d "school_name" (.str "")
  let rv ← pyGetD d "result" (.str "")
  let dv ← pyGetD d "date" (.str "")
  let cnt ← pyInt (← pyGetD d "count" (.int 0))
  return (key, .dict [(.str "school_name", sn), (.str "result", rv),
                      (.str "date", dv), (.str "count", .int cnt)])

/-- The `new_decisions` dict built by `main` from the filtered records:
`new_decisions[make_key(d)] = {...}` in order (last same-key record
wins). -/
def buildNewDecisions (filtered : List PyVal) (acc : List (PyVal × PyVal)) :
    Except String (List (PyVal × PyVal)) :=
  match filtered with
  | [] => .ok acc
  | d :: rest => do
    let e ← snapshotEntry d
    buildNewDecisions rest (dictSet acc (.str e.1) e.2)

/-- Python `sum(...)` over a list of values: ints and bools add, anything
else raises `TypeError`. -/
def pySumInts : List PyVal → Except String Int
  | [] => .ok 0
  | v :: rest =>
    match v with
    | .int n => (pySumInts rest).map (n + ·)
    | .bool b => (pySumInts rest).map ((if b then 1 else 0) + ·)
    | _ => .error "TypeError: unsupported operand type for +"

/-- `sum(summary.values())` from `src/scraper.py:295`. -/
def sumValues (summary : PyVal) : Except String Int :=
  match summary with
  | .dict es => pySumInts (es.map Prod.snd)
  | _ => .error "AttributeError: no attribute values"

/-- `scrape_decisions()` from `src/scraper.py:55-127`: the Playwright
page interaction is the opaque Page Loader, modelled as an already
resolved `Except` of (raw grid string, summary); the decoder is then
applied to the raw string inside the same call, so a decode error
propagates out of `scrape_decisions`. -/
def scrape_decisions (c : Codecs) (pageLoad : Except String (String × PyVal)) :
    Except String (List PyVal × PyVal) := do
  let r ← pageLoad
  let decisions ← decompress_grid_data c r.1
  return (decisions, r.2)

/-- How one invocation of `main` ends: `completed saved notifyError`
(reached `save_state`, persisting `saved`; `notifyError` records a
caught notification failure), `scrapeExit msg` (scrape failure caught at
`src/scraper.py:291-293`, reported, `sys.exit(1)`, no state written), or
`unhandled msg` (an exception propagated out of `main` — aborts with a
traceback, no state written). -/
inductive RunOutcome where
  | completed (saved : PyVal) (notifyError : Option String)
  | scrapeExit (msg : String)
  | unhandled (msg : String)

/-- `main()` from `src/scraper.py:284-336` (named `mainRun`: Lean reserves `main`).  External effects are inputs:
`pageLoad` is the Page Loader's result, `stateFile` the state file's
content, `notify` the Notifier applied to the built message, `now` the
timestamp.  Only the scrape and the notification send are wrapped in
`try/except` in the source; every other raised exception escapes as
`unhandled`. -/
def mainRun (c : Codecs) (cfg : Config) (pageLoad : Except String (String × PyVal))
    (stateFile : Option String) (notify : String → Except String Unit)
    (now : String) : RunOutcome :=
  match scrape_decisions c pageLoad with
  | .error e => .scrapeExit e
  | .ok ds =>
    match sumValues ds.2 with
    | .error e => .unhandled e
    | .ok _ =>
      match filter_decisions cfg ds.1 with
      | .error e => .unhandled e
      | .ok filtered =>
        match load_state c stateFile with
        | .error e => .unhandled e
        | .ok state =>
          match pyGetD state "decisions" (.dict []) with
          | .error e => .unhandled e
          | .ok prev_decisions =>
            match diff_decisions filtered prev_decisions with
            | .error e => .unhandled e
            | .ok changes =>
              let notifyErr :=
                if changes.isEmpty then Option.none
                else
                  match notify (build_message changes) with
                  | .ok _ => Option.none
                  | .error e => some e
              match buildNewDecisions filtered [] with
              | .error e => .unhandled e
              | .ok nd =>
                .completed (.dict [(.str "last_check", .str now),
                                   (.str "summary", ds.2),
                                   (.str "decisions", .dict nd)]) notifyErr

/-!
## Well-formed records and total projections

The spec's data model (§3) gives records string fields and an integer
count.  The theorems take such well-formedness as hypotheses; these total
projections name what the code reads from a well-formed record.
-/

/-- Is the value a Python dict? -/
def isDict : PyVal → Bool
  | .dict _ => true
  | _ => false

/-- Total `d.get(k, default)` on a record (the default when `d` is not a
dict — the code raises there, which the theorems exclude). -/
def entryGetD (d : PyVal) (k : String) (v0 : PyVal) : PyVal :=
  match d with
  | .dict es => (dictGet? es (.str k)).getD v0
  | _ => v0

/-- The record's diff key, totally: what `make_key` returns on a dict. -/
def keyOf (d : PyVal) : String :=
  pyStr (entryGetD d "school_name" (.str "")) ++ "|" ++
    pyStr (entryGetD d "result" (.str "")) ++ "|" ++
    pyStr (entryGetD d "date" (.str ""))

/-- The record's count, totally: what `int(d.get("count", 0))` returns
when it does not raise. -/
def countOf (d : PyVal) : Int :=
  ((pyInt (entryGetD d "count" (.int 0))).toOption).getD 0

/-- A record on which the diff / snapshot code does not raise: a dict
whose `count` field (default 0) converts with `int(...)`. -/
def recordOk (d : PyVal) : Bool :=
  isDict d && (pyInt (entryGetD d "count" (.int 0))).isOk

/-- The persisted per-key snapshot entry of a record, totally: what the
`new_decisions[key] = {...}` loop of `main` stores for it. -/
def snapEntryOf (d : PyVal) : PyVal :=
  .dict [(.str "school_name", entryGetD d "school_name" (.str "")),
         (.str "result", entryGetD d "result" (.str "")),
         (.str "date", entryGetD d "date" (.str "")),
         (.str "count", .int (countOf d))]

/-- `pyEq` against a string value decides equality with it. -/
theorem pyEq_str_right (x : PyVal) (k : String) : pyEq x (.str k) = true ↔ x = .str k := by
  cases x <;> simp [pyEq]

/-- `pyEq` on two strings is string equality. -/
theorem pyEq_str_str (a b : String) : pyEq (.str a) (.str b) = (a == b) := rfl

/-- A successful lookup returns the value of some entry. -/
theorem dictGet?_mem {P : List (PyVal × PyVal)} {k v : PyVal}
    (h : dictGet? P k = some v) : ∃ p ∈ P, p.2 = v := by
  induction P with
  | nil => simp [dictGet?] at h
  | cons e rest ih =>
    rw [dictGet?] at h
    by_cases hk : pyEq e.1 k = true
    · simp [hk] at h
      exact ⟨e, by simp, h⟩
    · rcases ih (by simpa [hk] using h) with ⟨p, hp, hv⟩
      exact ⟨p, by simp [hp], hv⟩

/-- `make_key` on a dict record is `keyOf`. -/
theorem make_key_ok {d : PyVal} (h : isDict d = true) : make_key d = .ok (keyOf d) := by
  cases d <;> simp [isDict] at h
  simp [make_key, pyGetD, keyOf, entryGetD, bind, Except.bind, pure, Except.pure]

/-- `d.get` on a dict record is the total projection. -/
theorem pyGetD_ok {d : PyVal} (h : isDict d = true) (k : String) (v0 : PyVal) :
    pyGetD d k v0 = .ok (entryGetD d k v0) := by
  cases d <;> simp [isDict] at h
  simp [pyGetD, entryGetD]

/-- On a well-formed record, `int(d.get("count", 0))` returns `countOf`. -/
theorem pyInt_count_ok {d : PyVal} (h : recordOk d = true) :
    pyInt (entryGetD d "count" (.int 0)) = .ok (countOf d) := by
  have h2 := (Bool.and_eq_true _ _).mp h |>.2
  rcases he : pyInt (entryGetD d "count" (.int 0)) with v | v
  · rw [he] at h2; simp [Except.isOk, Except.toBool] at h2
  · simp [countOf, he, Except.toOption]

/-- A well-formed record is a dict. -/
theorem recordOk_isDict {d : PyVal} (h : recordOk d = true) : isDict d = true :=
  (Bool.and_eq_true _ _).mp h |>.1

/-!
## Diff Engine: per-record specification
-/

/-- The Diff Engine's per-record behaviour as the spec words it (§4.3):
key absent → new event with `delta = count`; key present with a strictly
larger current count → update event with `delta` the difference; else no
event.  Written from the spec to compare with `diff_decisions`. -/
def specChange (P : List (PyVal × PyVal)) (d : PyVal) : Option ChangeEvent :=
  match dictGet? P (.str (keyOf d)) with
  | Option.none =>
    some ⟨entryGetD d "school_name" (.str "Unknown"), entryGetD d "result" (.str "Unknown"),
          entryGetD d "date" (.str ""), countOf d, countOf d, true⟩
  | some prevSnap =>
    if countOf prevSnap < countOf d then
      some ⟨entryGetD d "school_name" (.str "Unknown"), entryGetD d "result" (.str "Unknown"),
            entryGetD d "date" (.str ""), countOf d, countOf d - countOf prevSnap, false⟩
    else Option.none

/-- On a well-formed record and snapshot, one loop iteration of
`diff_decisions` computes `specChange`. -/
theorem diffOne_spec {P : List (PyVal × PyVal)} {d : PyVal}
    (hd : recordOk d = true) (hP : ∀ p ∈ P, recordOk p.2 = true) :
    diffOne (.dict P) d = .ok (specChange P d) := by
  have hdd := recordOk_isDict hd
  rw [diffOne]
  rw [make_key_ok hdd]
  simp only [bind, Except.bind, pyGetD_ok hdd, pyInt_count_ok hd, pyGet?]
  rcases hlook : dictGet? P (.str (keyOf d)) with _ | prevSnap
  · simp [specChange, hlook, pure, Except.pure]
  · rcases dictGet?_mem hlook with ⟨p, hpmem, hpv⟩
    have hpok : recordOk prevSnap = true := hpv ▸ hP p hpmem
    simp only [pyGetD_ok (recordOk_isDict hpok), pyInt_count_ok hpok]
    by_cases hcmp : countOf prevSnap < countOf d
    · simp [specChange, hlook, hcmp, pyGetD_ok hdd, pure, Except.pure]
    · simp [specChange, hlook, hcmp, pure, Except.pure]

/-- C2: on well-formed inputs `diff_decisions` is exactly the per-record
map of `specChange`, one output per triggering record, in input order. -/
theorem diff_decisions_spec {current : List PyVal} {P : List (PyVal × PyVal)}
    (hc : ∀ d ∈ current, recordOk d = true) (hP : ∀ p ∈ P, recordOk p.2 = true) :
    diff_decisions current (.dict P) = .ok (current.filterMap (specChange P)) := by
  induction current with
  | nil => simp [diff_decisions]
  | cons d rest ih =>
    rw [diff_decisions]
    rw [diffOne_spec (hc d (by simp)) hP]
    simp only [bind, Except.bind]
    rw [ih (fun x hx => hc x (by simp [hx]))]
    rcases hspec : specChange P d with _ | ev <;>
      simp [List.filterMap_cons, hspec, pure, Except.pure]

/-- A shared concrete well-formed record (school X, Accepted, count 5). -/
def recX5 : PyVal :=
  .dict [(.str "school_name", .str "X"), (.str "result", .str "Accepted"),
         (.str "date", .str "d1"), (.str "count", .int 5)]

/-- The same wave as `recX5` with count 3. -/
def recX3 : PyVal :=
  .dict [(.str "school_name", .str "X"), (.str "result", .str "Accepted"),
         (.str "date", .str "d1"), (.str "count", .int 3)]

/-- C2 witness: the diff of one well-formed record against the empty
snapshot, via `diff_decisions_spec` at concrete inputs. -/
theorem diff_decisions_spec_witness :
    diff_decisions [recX5] (.dict []) = .ok (List.filterMap (specChange []) [recX5]) :=
  diff_decisions_spec (by decide) (by simp)

/-- Any single event emitted by one iteration of the diff loop satisfies:
`delta = count` when new, `delta > 0` when an update. -/
theorem diffOne_delta {prev d : PyVal} {e : ChangeEvent}
    (h : diffOne prev d = .ok (some e)) :
    (e.is_new = true → e.delta = e.count) ∧ (e.is_new = false → 0 < e.delta) := by
  rw [diffOne] at h
  simp only [bind, Except.bind, pure, Except.pure] at h
  repeat' split at h
  all_goals simp_all
  all_goals (rcases h with rfl | rfl)
  all_goals simp_all

/-- C6 (amended): every ChangeEvent the Diff Engine emits has
`delta = count` when `is_new` is true, and `delta > 0` when `is_new` is
false.  (The unamended `delta > 0` for new events fails when a new
record's count is 0 — see the counterexample.) -/
theorem diff_events_delta {current : List PyVal} {prev : PyVal} {evs : List ChangeEvent}
    (h : diff_decisions current prev = .ok evs) :
    ∀ e ∈ evs, (e.is_new = true → e.delta = e.count) ∧ (e.is_new = false → 0 < e.delta) := by
  induction current generalizing evs with
  | nil =>
    rw [diff_decisions] at h
    simp only [Except.ok.injEq] at h
    subst h
    simp
  | cons d rest ih =>
    rw [diff_decisions] at h
    simp only [bind, Except.bind] at h
    rcases ho : diffOne prev d with m | ev <;> rw [ho] at h
    · simp at h
    rcases ht : diff_decisions rest prev with m | tail <;> rw [ht] at h
    · simp at h
    simp only [pure, Except.pure, Except.ok.injEq] at h
    rcases ev with _ | e0
    · subst h
      exact ih ht
    · subst h
      intro e he
      rcases List.mem_cons.mp he with rfl | he2
      · exact diffOne_delta ho
      · exact ih ht e he2

/-- C6 counterexample: a brand-new wave whose row has `count = 0` is
emitted with `delta = 0`, refuting `delta > 0` for every emitted event. -/
theorem diff_events_delta_counterexample :
    diff_decisions
        [.dict [(.str "school_name", .str "X"), (.str "result", .str "Accepted"),
                (.str "date", .str "2024-01-10"), (.str "count", .int 0)]]
        (.dict [])
      = .ok [⟨.str "X", .str "Accepted", .str "2024-01-10", 0, 0, true⟩] ∧
    ¬ ((0 : Int) > 0) :=
  ⟨rfl, by decide⟩

/-- C6 witness: `diff_events_delta` applied to the concrete diff of one
record with count 5 against the empty snapshot: the emitted new event
has `delta` equal to its `count`. -/
theorem diff_events_delta_witness :
    (⟨PyVal.str "X", PyVal.str "Accepted", PyVal.str "d1", 5, 5, true⟩ : ChangeEvent).delta =
      (⟨PyVal.str "X", PyVal.str "Accepted", PyVal.str "d1", 5, 5, true⟩ : ChangeEvent).count :=
  (@diff_events_delta [recX5] (.dict [])
      [⟨.str "X", .str "Accepted", .str "d1", 5, 5, true⟩] rfl
      ⟨.str "X", .str "Accepted", .str "d1", 5, 5, true⟩ (by simp)).1 rfl

/-!
## Record Filter (claim C7)
-/

/-- A record on which the filter comprehension does not raise: a dict
whose `school_name`, when present, is a string (the data model's
`school_name: string`). -/
def filterOk (d : PyVal) : Bool :=
  match d with
  | .dict es =>
    match dictGet? es (.str "school_name") with
    | some (.str _) => true
    | some _ => false
    | Option.none => true
  | _ => false

/-- Total `d.get("school_name", "").lower()`: the lowercased school name,
the empty string when the field is missing. -/
def lowerSchoolOf (d : PyVal) : String :=
  match d with
  | .dict es =>
    match dictGet? es (.str "school_name") with
    | some (.str s) => pyLower s
    | some _ => ""
    | Option.none => ""
  | _ => ""

/-- Does the record carry a `school_name` field? -/
def hasSchoolName (d : PyVal) : Bool :=
  match d with
  | .dict es => (dictGet? es (.str "school_name")).isSome
  | _ => false

/-- On a well-formed record the filter's field read computes
`lowerSchoolOf`. -/
theorem lowerSchool_ok {d : PyVal} (h : filterOk d = true) :
    lowerSchool d = .ok (lowerSchoolOf d) := by
  rcases d with _ | b | n | s | xs | es
  · simp [filterOk] at h
  · simp [filterOk] at h
  · simp [filterOk] at h
  · simp [filterOk] at h
  · simp [filterOk] at h
  · simp only [filterOk] at h
    simp only [lowerSchool, lowerSchoolOf]
    rcases hs : dictGet? es (.str "school_name") with _ | v
    · rfl
    · rcases v <;> simp_all

/-- The filter comprehension keeps, in order, exactly the well-formed
records whose lowercased school name is a watched name. -/
theorem filterWatched_spec {watched : List String} {records : List PyVal}
    (hw : ∀ d ∈ records, filterOk d = true) :
    filterWatched watched records =
      .ok (records.filter fun d => watched.contains (lowerSchoolOf d)) := by
  induction records with
  | nil => simp [filterWatched]
  | cons d rest ih =>
    rw [filterWatched]
    rw [lowerSchool_ok (hw d (by simp))]
    simp only [bind, Except.bind]
    rw [ih (fun x hx => hw x (by simp [hx]))]
    by_cases hc : watched.contains (lowerSchoolOf d) <;>
      simp [List.filter_cons, hc, pure, Except.pure]

/-- C7 (amended): with filtering disabled the Filter is the identity;
with filtering enabled it keeps, in input order, exactly the records
whose `school_name` — the empty string when the field is missing —
lowercases to a lowercased watch-list entry (case-insensitive full-string
match), and consequently drops every record missing `school_name`
provided no watch-list entry lowercases to the empty string.  (With an
empty-string watch-list entry such records are kept — see the
counterexample.) -/
theorem filter_decisions_spec (cfg : Config) (records : List PyVal)
    (hw : ∀ d ∈ records, filterOk d = true) :
    (cfg.POLL_SCHOOLS_ONLY = false → filter_decisions cfg records = .ok records) ∧
    (cfg.POLL_SCHOOLS_ONLY = true →
      filter_decisions cfg records =
        .ok (records.filter fun d =>
          (cfg.SCHOOLS.map pyLower).contains (lowerSchoolOf d)) ∧
      ("" ∉ cfg.SCHOOLS.map pyLower →
        ∀ r ∈ records.filter (fun d =>
            (cfg.SCHOOLS.map pyLower).contains (lowerSchoolOf d)),
          hasSchoolName r = true)) := by
  constructor
  · intro hoff
    simp [filter_decisions, hoff]
  · intro hon
    constructor
    · rw [filter_decisions]
      simp only [hon, Bool.not_true, Bool.false_eq_true, if_neg, if_false]
      exact filterWatched_spec hw
    · intro hne r hr
      have hmem := List.mem_filter.mp hr
      have hok : filterOk r = true := hw r hmem.1
      have hcon := hmem.2
      rcases r with _ | _ | _ | _ | _ | es <;> simp [filterOk] at hok
      rw [hasSchoolName]
      rcases hs : dictGet? es (.str "school_name") with _ | v
      · exfalso
        apply hne
        have : lowerSchoolOf (.dict es) = "" := by simp [lowerSchoolOf, hs]
        rw [this] at hcon
        exact List.mem_of_elem_eq_true hcon
      · simp

/-- C7 counterexample: with watch-list `[""]` and filtering enabled, a
record with no `school_name` field is kept, not dropped (its missing
name defaults to `""`, which matches the empty watch-list entry). -/
theorem filter_missing_kept_counterexample :
    filter_decisions ⟨[""], true⟩ [.dict []] = .ok [.dict []] ∧
    dictGet? ([] : List (PyVal × PyVal)) (.str "school_name") = Option.none :=
  ⟨rfl, rfl⟩

/-- C7 witness: the amended filter characterisation at a concrete
watch-list, matching case-insensitively and dropping a near-miss
substring name. -/
theorem filter_decisions_spec_witness :
    ((⟨["Harvard University"], true⟩ : Config).POLL_SCHOOLS_ONLY = false →
      filter_decisions ⟨["Harvard University"], true⟩
        [.dict [(.str "school_name", .str "harvard university")],
         .dict [(.str "school_name", .str "Harvard University Law")]] =
        .ok [.dict [(.str "school_name", .str "harvard university")],
             .dict [(.str "school_name", .str "Harvard University Law")]]) ∧
    ((⟨["Harvard University"], true⟩ : Config).POLL_SCHOOLS_ONLY = true →
      filter_decisions ⟨["Harvard University"], true⟩
        [.dict [(.str "school_name", .str "harvard university")],
         .dict [(.str "school_name", .str "Harvard University Law")]] =
        .ok ([.dict [(.str "school_name", .str "harvard university")],
              .dict [(.str "school_name", .str "Harvard University Law")]].filter fun d =>
          ((⟨["Harvard University"], true⟩ : Config).SCHOOLS.map pyLower).contains
            (lowerSchoolOf d)) ∧
      ("" ∉ (⟨["Harvard University"], true⟩ : Config).SCHOOLS.map pyLower →
        ∀ r ∈ [.dict [(.str "school_name", .str "harvard university")],
               .dict [(.str "school_name", .str "Harvard University Law")]].filter
            (fun d =>
              ((⟨["Harvard University"], true⟩ : Config).SCHOOLS.map pyLower).contains
                (lowerSchoolOf d)),
          hasSchoolName r = true)) :=
  filter_decisions_spec ⟨["Harvard University"], true⟩
    [.dict [(.str "school_name", .str "harvard university")],
     .dict [(.str "school_name", .str "Harvard University Law")]] (by decide)

/-!
## Snapshot building and re-diffing (claims C4, C5)
-/

/-- A value other than the string `k` compares `pyEq`-false with it. -/
theorem pyEq_ne_str {x : PyVal} {k : String} (h : x ≠ .str k) : pyEq x (.str k) = false := by
  rcases h2 : pyEq x (.str k)
  · rfl
  · exact absurd ((pyEq_str_right x k).mp h2) h

/-- Setting a key absent from the dict appends the new entry. -/
theorem dictSet_fresh {es : List (PyVal × PyVal)} {k : String} {v : PyVal}
    (h : ∀ p ∈ es, p.1 ≠ .str k) :
    dictSet es (.str k) v = es ++ [(.str k, v)] := by
  induction es with
  | nil => rfl
  | cons e rest ih =>
    rw [dictSet]
    rw [pyEq_ne_str (h e (by simp))]
    simp only [Bool.false_eq_true, if_neg, if_false, List.cons_append, List.cons.injEq, true_and]
    exact ih fun p hp => h p (by simp [hp])

/-- On a well-formed record, the snapshot-building loop body computes
`(keyOf d, snapEntryOf d)`. -/
theorem snapshotEntry_ok {d : PyVal} (h : recordOk d = true) :
    snapshotEntry d = .ok (keyOf d, snapEntryOf d) := by
  rw [snapshotEntry]
  rw [make_key_ok (recordOk_isDict h)]
  simp only [bind, Except.bind, pyGetD_ok (recordOk_isDict h), pyInt_count_ok h]
  simp [snapEntryOf, pure, Except.pure]

/-- With pairwise-distinct keys that are also fresh for the accumulator,
the snapshot dict is the accumulator followed by one entry per record,
in order. -/
theorem buildNewDecisions_eq {current : List PyVal} {acc : List (PyVal × PyVal)}
    (hwf : ∀ d ∈ current, recordOk d = true)
    (hpw : (current.map keyOf).Pairwise (· ≠ ·))
    (hfresh : ∀ d ∈ current, ∀ p ∈ acc, p.1 ≠ .str (keyOf d)) :
    buildNewDecisions current acc =
      .ok (acc ++ current.map fun d => (.str (keyOf d), snapEntryOf d)) := by
  induction current generalizing acc with
  | nil => simp [buildNewDecisions]
  | cons d rest ih =>
    rw [buildNewDecisions]
    rw [snapshotEntry_ok (hwf d (by simp))]
    simp only [bind, Except.bind]
    rw [dictSet_fresh (hfresh d (by simp))]
    rw [List.map_cons] at hpw
    have hpw2 := List.pairwise_cons.mp hpw
    rw [ih (fun x hx => hwf x (by simp [hx])) hpw2.2 ?_]
    · simp
    · intro x hx p hp
      rcases List.mem_append.mp hp with hp1 | hp2
      · exact hfresh x (by simp [hx]) p hp1
      · simp only [List.mem_singleton] at hp2
        subst hp2
        intro hcontra
        have : keyOf d = keyOf x := by
          have := congrArg (fun y => y) hcontra
          simpa using PyVal.str.inj hcontra
        exact hpw2.1 (keyOf x) (List.mem_map_of_mem keyOf hx) this

/-- Looking up a record's key in the per-record snapshot list finds that
record's snapshot entry, when keys are pairwise distinct. -/
theorem dictGet?_keyMap {current : List PyVal}
    (hpw : (current.map keyOf).Pairwise (· ≠ ·)) {d : PyVal} (hd : d ∈ current) :
    dictGet? (current.map fun r => (.str (keyOf r), snapEntryOf r)) (.str (keyOf d)) =
      some (snapEntryOf d) := by
  induction current with
  | nil => simp at hd
  | cons d0 rest ih =>
    rw [List.map_cons, dictGet?]
    rw [List.map_cons] at hpw
    have hpw2 := List.pairwise_cons.mp hpw
    rcases List.mem_cons.mp hd with rfl | hd2
    · simp [pyEq_str_str]
    · have hne : keyOf d0 ≠ keyOf d :=
        hpw2.1 (keyOf d) (List.mem_map_of_mem keyOf hd2)
      rw [pyEq_str_str]
      simp only [beq_eq_false_iff_ne.mpr hne, Bool.false_eq_true, if_neg, if_false]
      exact ih hpw2.2 hd2

/-- Re-diffing a record against its own persisted snapshot entry yields
no event (the counts are equal). -/
theorem diffOne_self {d : PyVal} (hd : recordOk d = true) {P : List (PyVal × PyVal)}
    (hlook : dictGet? P (.str (keyOf d)) = some (snapEntryOf d)) :
    diffOne (.dict P) d = .ok Option.none := by
  rw [diffOne]
  rw [make_key_ok (recordOk_isDict hd)]
  simp only [bind, Except.bind, pyGetD_ok (recordOk_isDict hd), pyInt_count_ok hd, pyGet?]
  rw [hlook]
  simp [snapEntryOf, pyGetD, dictGet?, pyEq_str_str, pyInt, pure, Except.pure]

/-- A diff in which no record triggers produces no events. -/
theorem diff_decisions_none {current : List PyVal} {P : PyVal}
    (h : ∀ d ∈ current, diffOne P d = .ok Option.none) :
    diff_decisions current P = .ok [] := by
  induction current with
  | nil => rfl
  | cons d rest ih =>
    rw [diff_decisions]
    rw [h d (by simp)]
    simp only [bind, Except.bind]
    rw [ih fun x hx => h x (by simp [hx])]
    rfl

/-- C4 (amended): for a well-formed filtered sequence whose records have
pairwise-distinct keys, diffing it against the snapshot persisted from it
produces zero ChangeEvents.  (With duplicate keys the claim fails: the
snapshot keeps only the last same-key record, so an earlier record with a
larger count re-triggers — see the counterexample.) -/
theorem diff_after_save_empty {current : List PyVal}
    (hwf : ∀ d ∈ current, recordOk d = true)
    (hpw : (current.map keyOf).Pairwise (· ≠ ·)) :
    ∃ nd, buildNewDecisions current [] = .ok nd ∧
      diff_decisions current (.dict nd) = .ok [] := by
  refine ⟨_, buildNewDecisions_eq hwf hpw (by simp), ?_⟩
  apply diff_decisions_none
  intro d hd
  exact diffOne_self (hwf d hd) (by simpa using dictGet?_keyMap hpw hd)

/-- C4 counterexample: two same-key records with counts 5 then 3 — the
persisted snapshot keeps the last (count 3), and re-diffing the same
sequence against it emits an event (delta 2), not zero events. -/
theorem diff_after_save_counterexample :
    buildNewDecisions [recX5, recX3] [] =
      .ok [(.str "X|Accepted|d1",
            .dict [(.str "school_name", .str "X"), (.str "result", .str "Accepted"),
                   (.str "date", .str "d1"), (.str "count", .int 3)])] ∧
    diff_decisions [recX5, recX3]
        (.dict [(.str "X|Accepted|d1",
                 .dict [(.str "school_name", .str "X"), (.str "result", .str "Accepted"),
                        (.str "date", .str "d1"), (.str "count", .int 3)])]) =
      .ok [⟨.str "X", .str "Accepted", .str "d1", 5, 2, false⟩] ∧
    ((⟨.str "X", .str "Accepted", .str "d1", 5, 2, false⟩ : ChangeEvent) :: []) ≠ [] :=
  ⟨rfl, rfl, by simp⟩

/-- C4 witness: `diff_after_save_empty` at the one-record sequence. -/
theorem diff_after_save_witness :
    ∃ nd, buildNewDecisions [recX5] [] = .ok nd ∧
      diff_decisions [recX5] (.dict nd) = .ok [] :=
  diff_after_save_empty (by decide) (by simp)

/-- Lookup after a dict assignment with a string key: the new value at
that key, unchanged elsewhere. -/
theorem dictGet?_dictSet_str {es : List (PyVal × PyVal)} (k q : String) (v : PyVal) :
    dictGet? (dictSet es (.str k) v) (.str q) =
      if k = q then some v else dictGet? es (.str q) := by
  induction es with
  | nil =>
    simp only [dictSet, dictGet?, pyEq_str_str, beq_iff_eq]
  | cons e rest ih =>
    rw [dictSet]
    by_cases hpe : pyEq e.1 (.str k) = true
    · have hek := (pyEq_str_right e.1 k).mp hpe
      rw [if_pos hpe, dictGet?, dictGet?, hek]
      simp only [pyEq_str_str, beq_iff_eq]
      by_cases hkq : k = q <;> simp [hkq]
    · rw [if_neg hpe, dictGet?, dictGet?]
      by_cases heq : pyEq e.1 (.str q) = true
      · have hkq : ¬ k = q := by
          intro hc
          subst hc
          exact hpe heq
        simp [heq, hkq]
      · simp only [heq, Bool.false_eq_true, if_neg, if_false]
        exact ih

/-- Every key of a dict after an assignment is an old key or the new
key. -/
theorem dictSet_keys_sub {es : List (PyVal × PyVal)} {k v : PyVal} :
    ∀ x ∈ (dictSet es k v).map Prod.fst, x ∈ es.map Prod.fst ∨ x = k := by
  induction es with
  | nil => simp [dictSet]
  | cons e rest ih =>
    intro x hx
    rw [dictSet] at hx
    by_cases hpe : pyEq e.1 k = true <;> simp [hpe] at hx
    · rcases hx with rfl | hx2
      · exact Or.inl (by simp)
      · exact Or.inl (by simp [hx2])
    · rcases hx with rfl | hx2
      · exact Or.inl (by simp)
      · rcases ih x (by simpa using hx2) with h1 | h2
        · exact Or.inl (by simp [h1])
        · exact Or.inr h2

/-- Assigning a string key preserves at-most-one-entry-per-key. -/
theorem dictSet_keys_nodup {es : List (PyVal × PyVal)} {k : String} {v : PyVal}
    (h : (es.map Prod.fst).Pairwise (· ≠ ·)) :
    ((dictSet es (.str k) v).map Prod.fst).Pairwise (· ≠ ·) := by
  induction es with
  | nil => simp [dictSet]
  | cons e rest ih =>
    rw [dictSet]
    rw [List.map_cons, List.pairwise_cons] at h
    by_cases hpe : pyEq e.1 (.str k) = true
    · rw [if_pos hpe]
      rw [List.map_cons, List.pairwise_cons]
      exact ⟨h.1, h.2⟩
    · rw [if_neg hpe]
      rw [List.map_cons, List.pairwise_cons]
      constructor
      · intro x hx
        rcases dictSet_keys_sub x hx with h1 | h2
        · exact h.1 x h1
        · subst h2
          intro hc
          exact hpe ((pyEq_str_right e.1 k).mpr hc)
      · exact ih h.2

/-- Characterisation of the snapshot dict built by `main`: keys are
unique, and each string key maps to the snapshot entry of the LAST
record in the walked sequence bearing that key (falling back to the
accumulator). -/
theorem buildNewDecisions_char {current : List PyVal} {acc : List (PyVal × PyVal)}
    (hwf : ∀ d ∈ current, recordOk d = true)
    (hacc : (acc.map Prod.fst).Pairwise (· ≠ ·)) :
    ∃ nd, buildNewDecisions current acc = .ok nd ∧
      (nd.map Prod.fst).Pairwise (· ≠ ·) ∧
      ∀ q : String, dictGet? nd (.str q) =
        match current.reverse.find? (fun r => keyOf r == q) with
        | some r => some (snapEntryOf r)
        | Option.none => dictGet? acc (.str q) := by
  induction current generalizing acc with
  | nil =>
    refine ⟨acc, rfl, hacc, ?_⟩
    intro q
    simp
  | cons d rest ih =>
    rw [buildNewDecisions]
    rw [snapshotEntry_ok (hwf d (by simp))]
    simp only [bind, Except.bind]
    rcases ih (fun x hx => hwf x (by simp [hx])) (dictSet_keys_nodup hacc) with
      ⟨nd, hnd, hnodup, hchar⟩
    refine ⟨nd, hnd, hnodup, ?_⟩
    intro q
    rw [hchar q]
    rw [List.reverse_cons, List.find?_append]
    rcases hf : rest.reverse.find? (fun r => keyOf r == q) with _ | r
    · simp only [Option.none_or]
      rw [List.find?_singleton]
      rw [dictGet?_dictSet_str]
      by_cases hkq : keyOf d = q
      · simp [hkq]
      · simp [beq_eq_false_iff_ne.mpr hkq, hkq]
    · simp [Option.or]

/-- C5 (amended): after a run's state save the persisted decisions
mapping contains at most one entry per key, and the entry at each key is
the snapshot (with its stored count) of the LAST record bearing that key
in the current run's filtered sequence — a snapshot of the current run
only, not the maximum count ever observed: a decreased source count is
persisted as-is (see the counterexample). -/
theorem saved_decisions_char {filtered : List PyVal}
    (hwf : ∀ d ∈ filtered, recordOk d = true) :
    ∃ nd, buildNewDecisions filtered [] = .ok nd ∧
      (nd.map Prod.fst).Pairwise (· ≠ ·) ∧
      ∀ q : String, dictGet? nd (.str q) =
        (filtered.reverse.find? fun r => keyOf r == q).map snapEntryOf := by
  rcases buildNewDecisions_char hwf
      (show (([] : List (PyVal × PyVal)).map Prod.fst).Pairwise (· ≠ ·) by simp) with
    ⟨nd, hnd, hnodup, hchar⟩
  refine ⟨nd, hnd, hnodup, ?_⟩
  intro q
  rw [hchar q]
  rcases filtered.reverse.find? (fun r => keyOf r == q) with _ | r <;> simp [dictGet?]

/-- The state value persisted by the first concrete run below (wave
count 5). -/
def runOneSaved : PyVal :=
  .dict [(.str "last_check", .str "t1"), (.str "summary", .dict []),
         (.str "decisions", .dict [(.str "X|Accepted|d1",
           .dict [(.str "school_name", .str "X"), (.str "result", .str "Accepted"),
                  (.str "date", .str "d1"), (.str "count", .int 5)])])]

/-- A concrete codec environment: page loads PAGE1 / PAGE2 carry the same
wave with counts 5 then 3, STATE1 is exactly the state text persisted by
the first run, and any other input is a JSON decode error. -/
def snapCodecs : Codecs where
  jsonLoads := fun s =>
    if s = "PAGE1" then .ok (.list [recX5])
    else if s = "PAGE2" then .ok (.list [recX3])
    else if s = "STATE1" then .ok runOneSaved
    else .error "json.decoder.JSONDecodeError: Expecting value"
  jsonLoadsBytes := fun _ => .error "json.decoder.JSONDecodeError: Expecting value"
  b64decode := fun _ => .error "binascii.Error: Invalid base64-encoded string"
  zlibDecompress := fun _ => .error "zlib.error: Error -3 while decompressing data"

/-- Configuration with watch-list filtering disabled. -/
def cfgNoFilter : Config := ⟨[], false⟩

/-- A Notifier whose send always succeeds. -/
def okNotify : String → Except String Unit := fun _ => .ok ()

/-- C5 counterexample: run 1 persists the wave with count 5; run 2, fed
run 1's state and the same wave with count 3, persists count 3 — not the
maximum count (5) observed for that key up to and including the current
run, and not monotone while the key stays present. -/
theorem saved_decisions_counterexample :
    mainRun snapCodecs cfgNoFilter (.ok ("PAGE1", .dict [])) Option.none okNotify "t1"
      = .completed runOneSaved Option.none ∧
    mainRun snapCodecs cfgNoFilter (.ok ("PAGE2", .dict [])) (some "STATE1") okNotify "t2"
      = .completed
          (.dict [(.str "last_check", .str "t2"), (.str "summary", .dict []),
                  (.str "decisions", .dict [(.str "X|Accepted|d1",
                    .dict [(.str "school_name", .str "X"), (.str "result", .str "Accepted"),
                           (.str "date", .str "d1"), (.str "count", .int 3)])])])
          Option.none ∧
    ¬ ((3 : Int) = max 5 3) :=
  ⟨rfl, rfl, by decide⟩

/-- C5 witness: `saved_decisions_char` applied to the two-record
sequence with counts 5 then 3 on one key. -/
theorem saved_decisions_char_witness :
    ∃ nd, buildNewDecisions [recX5, recX3] [] = .ok nd ∧
      (nd.map Prod.fst).Pairwise (· ≠ ·) ∧
      ∀ q : String, dictGet? nd (.str q) =
        ([recX5, recX3].reverse.find? fun r => keyOf r == q).map snapEntryOf :=
  saved_decisions_char (by decide)

/-!
## Runner failure semantics (claims C8, C9)
-/

/-- C8: a Notification Failure does not prevent the state save — when
every stage up to the notification succeeds, a run whose notifier always
raises still completes and persists the snapshot built from the current
filtered records (the send error is caught at `src/scraper.py:313-316`).
-/
theorem notify_failure_still_saves {c : Codecs} {cfg : Config}
    {pageLoad : Except String (String × PyVal)} {stateFile : Option String}
    {now : String} {decisions : List PyVal} {summary : PyVal} {t : Int}
    {filtered : List PyVal} {state prev : PyVal} {changes : List ChangeEvent}
    {nd : List (PyVal × PyVal)} (e : String)
    (hscrape : scrape_decisions c pageLoad = .ok (decisions, summary))
    (hsum : sumValues summary = .ok t)
    (hfil : filter_decisions cfg decisions = .ok filtered)
    (hload : load_state c stateFile = .ok state)
    (hprev : pyGetD state "decisions" (.dict []) = .ok prev)
    (hdiff : diff_decisions filtered prev = .ok changes)
    (hnd : buildNewDecisions filtered [] = .ok nd) :
    mainRun c cfg pageLoad stateFile (fun _ => .error e) now =
      .completed (.dict [(.str "last_check", .str now), (.str "summary", summary),
                         (.str "decisions", .dict nd)])
        (if changes.isEmpty then Option.none else some e) := by
  rw [mainRun, hscrape]
  simp only [hsum, hfil, hload, hprev, hdiff, hnd]

/-- C8 witness: `notify_failure_still_saves` on the concrete first run
with a notifier that raises a connection error: the same state is saved.
-/
theorem notify_failure_still_saves_witness :
    mainRun snapCodecs cfgNoFilter (.ok ("PAGE1", .dict [])) Option.none
        (fun _ => .error "requests.exceptions.ConnectionError") "t1" =
      .completed runOneSaved (some "requests.exceptions.ConnectionError") :=
  @notify_failure_still_saves snapCodecs cfgNoFilter (.ok ("PAGE1", .dict []))
    Option.none "t1" [recX5] (.dict []) 0 [recX5] (.dict []) (.dict [])
    [⟨.str "X", .str "Accepted", .str "d1", 5, 5, true⟩]
    [(.str "X|Accepted|d1",
      .dict [(.str "school_name", .str "X"), (.str "result", .str "Accepted"),
             (.str "date", .str "d1"), (.str "count", .int 5)])]
    "requests.exceptions.ConnectionError" rfl rfl rfl rfl rfl rfl rfl

/-- C9 (amended): a Page Loader / scrape failure is caught at the Runner
boundary, reported, and ends the run with `sys.exit(1)` before any state
mutation; but a Store Failure — a non-empty state file whose text does
not parse — propagates out of `main` as an unhandled exception (a Python
traceback, still a non-zero exit and no state save), not as a handled
report, contrary to the claim that no failure escapes as an unhandled
fault. -/
theorem runner_failure_modes {c : Codecs} {cfg : Config}
    {notify : String → Except String Unit} {now : String} :
    (∀ (e : String) (stateFile : Option String),
       mainRun c cfg (.error e) stateFile notify now = .scrapeExit e) ∧
    (∀ (raw text e : String) (summary : PyVal) (decisions : List PyVal) (t : Int)
       (filtered : List PyVal),
       decompress_grid_data c raw = .ok decisions →
       sumValues summary = .ok t →
       filter_decisions cfg decisions = .ok filtered →
       pyStrip text ≠ "" →
       c.jsonLoads (pyStrip text) = .error e →
       mainRun c cfg (.ok (raw, summary)) (some text) notify now = .unhandled e) := by
  constructor
  · intro e stateFile
    rw [mainRun]
    have hs : scrape_decisions c (.error e) = .error e := rfl
    rw [hs]
  · intro raw text e summary decisions t filtered hdec hsum hfil htext hparse
    rw [mainRun]
    have hs : scrape_decisions c (.ok (raw, summary)) = .ok (decisions, summary) := by
      rw [scrape_decisions]
      simp [bind, Except.bind, hdec, pure, Except.pure]
    rw [hs]
    have hl : load_state c (some text) = .error e := by
      rw [load_state]
      simp [htext, hparse]
    simp only [hsum, hfil, hl]

/-- C9 counterexample: a corrupt non-empty state file makes the run end
as an unhandled exception escaping `main` — the failure is not turned
into a handled, reported outcome at the Runner boundary. -/
theorem runner_failure_counterexample :
    mainRun snapCodecs cfgNoFilter (.ok ("PAGE1", .dict [])) (some "CORRUPT")
        okNotify "t1" =
      .unhandled "json.decoder.JSONDecodeError: Expecting value" :=
  rfl

/-- C9 witness: both amended failure modes at concrete inputs. -/
theorem runner_failure_modes_witness :
    mainRun snapCodecs cfgNoFilter (.error "playwright TimeoutError") Option.none
        okNotify "t1" = .scrapeExit "playwright TimeoutError" ∧
    mainRun snapCodecs cfgNoFilter (.ok ("PAGE1", .dict [])) (some "BADSTATE")
        okNotify "t1" = .unhandled "json.decoder.JSONDecodeError: Expecting value" :=
  ⟨(@runner_failure_modes snapCodecs cfgNoFilter okNotify "t1").1
     "playwright TimeoutError" Option.none,
   (@runner_failure_modes snapCodecs cfgNoFilter okNotify "t1").2
     "PAGE1" "BADSTATE" "json.decoder.JSONDecodeError: Expecting value"
     (.dict []) [recX5] 0 [recX5] rfl rfl rfl (by decide) rfl⟩

/-!
## Payload Decoder (claims C1, C10, C3)
-/

/-- Setting a key that compares `pyEq`-false with every existing key
appends the entry. -/
theorem dictSet_freshEq {es : List (PyVal × PyVal)} {k v : PyVal}
    (h : ∀ p ∈ es, pyEq p.1 k = false) :
    dictSet es k v = es ++ [(k, v)] := by
  induction es with
  | nil => rfl
  | cons e rest ih =>
    rw [dictSet]
    rw [h e (by simp)]
    simp only [Bool.false_eq_true, if_neg, if_false, List.cons_append, List.cons.injEq, true_and]
    exact ih fun p hp => h p (by simp [hp])

/-- `dict(pairs)` over hashable, pairwise-distinct keys that are fresh
for the accumulator keeps every pair, in order. -/
theorem pyDictInsert_fresh {pairs acc : List (PyVal × PyVal)}
    (hh : ∀ p ∈ pairs, hashable p.1 = true)
    (hpw : pairs.Pairwise (fun a b => pyEq a.1 b.1 = false))
    (hfresh : ∀ p ∈ pairs, ∀ q ∈ acc, pyEq q.1 p.1 = false) :
    pyDictInsert acc pairs = .ok (acc ++ pairs) := by
  induction pairs generalizing acc with
  | nil => simp [pyDictInsert]
  | cons p rest ih =>
    rw [pyDictInsert]
    rw [hh p (by simp)]
    simp only [if_pos]
    rw [dictSet_freshEq (fun q hq => hfresh p (by simp) q hq)]
    rw [List.pairwise_cons] at hpw
    rw [ih (fun x hx => hh x (by simp [hx])) hpw.2 ?_]
    · simp
    · intro x hx q hq
      rcases List.mem_append.mp hq with h1 | h2
      · exact hfresh x (by simp [hx]) q h1
      · simp only [List.mem_singleton] at h2
        subst h2
        exact hpw.1 x hx

/-- Distinct schema names map to pairwise-`pyEq`-distinct string keys. -/
theorem pairwise_str_map {S : List String} (h : S.Nodup) :
    (S.map PyVal.str).Pairwise (fun a b => pyEq a b = false) := by
  rw [List.pairwise_map]
  exact h.imp fun hne => by
    rw [pyEq_str_str]
    exact beq_eq_false_iff_ne.mpr hne

/-- Zipping keeps the keys pairwise distinct. -/
theorem pairwise_keys_zip {ks vs : List PyVal}
    (h : ks.Pairwise (fun a b => pyEq a b = false)) :
    (ks.zip vs).Pairwise (fun a b => pyEq a.1 b.1 = false) := by
  induction ks generalizing vs with
  | nil => simp
  | cons k rest ih =>
    cases vs with
    | nil => simp
    | cons v vt =>
      rw [List.zip_cons_cons, List.pairwise_cons]
      rw [List.pairwise_cons] at h
      constructor
      · rintro ⟨a, b⟩ hp
        exact h.1 a (List.of_mem_zip hp).1
      · exact ih h.2

/-- `dict(zip(schema, row))` over distinct string schema names is the
(truncating) zip itself. -/
theorem dictZip_strKeys {S : List String} (hS : S.Nodup) (row : List PyVal) :
    dictZip (.list (S.map PyVal.str)) (.list row) =
      .ok (.dict ((S.map PyVal.str).zip row)) := by
  rw [dictZip]
  simp only [toIterable, bind, Except.bind]
  rw [pyDictOfPairs, pyDictInsert_fresh ?_ (pairwise_keys_zip (pairwise_str_map hS)) (by simp)]
  · simp [pure, Except.pure]
  · rintro ⟨a, b⟩ hp
    rcases List.mem_map.mp (List.of_mem_zip hp).1 with ⟨s, hs, rfl⟩
    rfl

/-- The decoder's row comprehension over distinct string schema names. -/
theorem dictZipRows_strKeys {S : List String} (hS : S.Nodup) (R : List (List PyVal)) :
    dictZipRows (.list (S.map PyVal.str)) (R.map PyVal.list) =
      .ok (R.map fun row => .dict ((S.map PyVal.str).zip row)) := by
  induction R with
  | nil => rfl
  | cons row rest ih =>
    rw [List.map_cons, dictZipRows]
    rw [dictZip_strKeys hS row]
    simp only [bind, Except.bind]
    rw [ih]
    simp [pure, Except.pure]

/-- Core of C1/C10: a non-empty raw string whose JSON is the recognized
double-wrapped envelope, with a decode chain resolving to a
`schema`/`data` payload over distinct string column names, decodes to one
zipped record per row, in row order. -/
theorem decompress_schema_rows {c : Codecs} {raw b : String} {y z : List Nat}
    {S : List String} {R : List (List PyVal)}
    (h0 : raw ≠ "")
    (h1 : c.jsonLoads raw = .ok (.dict [(.str "compressed", .bool true),
            (.str "data", .dict [(.str "compressed", .bool true), (.str "data", .str b)])]))
    (h2 : c.b64decode b = .ok y)
    (h3 : c.zlibDecompress y = .ok z)
    (h4 : c.jsonLoadsBytes z = .ok (.dict [(.str "schema", .list (S.map PyVal.str)),
                                           (.str "data", .list (R.map PyVal.list))]))
    (hS : S.Nodup) :
    decompress_grid_data c raw = .ok (R.map fun row => .dict ((S.map PyVal.str).zip row)) := by
  rw [decompress_grid_data]
  simp only [if_neg h0, h1, bind, Except.bind, pure, Except.pure, dictGet?, pyEq_str_str,
             PyVal.truthy, Option.getD, h2, h3, h4, toIterable, String.reduceBEq,
             beq_self_eq_true, Bool.not_true, Bool.not_false, if_true, if_false, reduceIte,
             Bool.false_eq_true, Bool.true_eq_false, eq_self_iff_true]
  rw [dictZipRows_strKeys hS]

/-- In a zipped record over distinct schema names, looking up the i-th
column name yields the i-th row value. -/
theorem dictGet?_zipStr {S : List String} (hS : S.Nodup) {row : List PyVal}
    {i : Nat} (hi : i < S.length) (hiv : i < row.length) :
    dictGet? ((S.map PyVal.str).zip row) (.str (S.get ⟨i, hi⟩)) =
      some (row.get ⟨i, hiv⟩) := by
  induction S generalizing row i with
  | nil => simp at hi
  | cons s rest ih =>
    cases row with
    | nil => simp at hiv
    | cons v vt =>
      rw [List.map_cons, List.zip_cons_cons, dictGet?]
      cases i with
      | zero => simp [pyEq_str_str, List.get]
      | succ n =>
        have hn : n < rest.length := Nat.lt_of_succ_lt_succ hi
        have hget : (s :: rest).get ⟨n + 1, hi⟩ = rest.get ⟨n, hn⟩ := rfl
        rw [hget]
        have hne : s ≠ rest.get ⟨n, hn⟩ := by
          intro hc
          exact (List.nodup_cons.mp hS).1 (hc ▸ List.get_mem rest n hn)
        rw [pyEq_str_str]
        simp only [beq_eq_false_iff_ne.mpr hne, Bool.false_eq_true, if_neg, if_false]
        exact ih (List.nodup_cons.mp hS).2 hn (Nat.lt_of_succ_lt_succ hiv)

/-- C1: decoding the double-wrapped envelope whose inner base64 text `b`
decodes (base64 → zlib → JSON, the three codec hypotheses) to
`{"schema": S, "data": R}`, with rows aligned to the schema, returns one
record per row of `R` in row order; the i-th record maps each column
name of `S` (distinct, so that "the mapping" is well defined) to the
i-th row's corresponding positional value. -/
theorem decode_double_wrapped {c : Codecs} {raw b : String} {y z : List Nat}
    {S : List String} {R : List (List PyVal)}
    (h0 : raw ≠ "")
    (h1 : c.jsonLoads raw = .ok (.dict [(.str "compressed", .bool true),
            (.str "data", .dict [(.str "compressed", .bool true), (.str "data", .str b)])]))
    (h2 : c.b64decode b = .ok y)
    (h3 : c.zlibDecompress y = .ok z)
    (h4 : c.jsonLoadsBytes z = .ok (.dict [(.str "schema", .list (S.map PyVal.str)),
                                           (.str "data", .list (R.map PyVal.list))]))
    (hS : S.Nodup) (_hlen : ∀ row ∈ R, row.length = S.length) :
    decompress_grid_data c raw =
      .ok (R.map fun row => .dict ((S.map PyVal.str).zip row)) ∧
    (R.map fun row => PyVal.dict ((S.map PyVal.str).zip row)).length = R.length ∧
    ∀ row ∈ R, ∀ (i : Nat) (hi : i < S.length) (hiv : i < row.length),
      dictGet? ((S.map PyVal.str).zip row) (.str (S.get ⟨i, hi⟩)) =
        some (row.get ⟨i, hiv⟩) :=
  ⟨decompress_schema_rows h0 h1 h2 h3 h4 hS, by simp,
   fun row hrow i hi hiv => dictGet?_zipStr hS hi hiv⟩

/-- C10: when a row's length differs from the schema's, the decoder
still succeeds and zips with truncation — the row's record holds exactly
the first min(|S|, |row|) columns, pairing the i-th shared column name
with the i-th row value; excess schema names or excess row values are
silently discarded and no error is raised. -/
theorem decode_zip_truncates {c : Codecs} {raw b : String} {y z : List Nat}
    {S : List String} {R : List (List PyVal)}
    (h0 : raw ≠ "")
    (h1 : c.jsonLoads raw = .ok (.dict [(.str "compressed", .bool true),
            (.str "data", .dict [(.str "compressed", .bool true), (.str "data", .str b)])]))
    (h2 : c.b64decode b = .ok y)
    (h3 : c.zlibDecompress y = .ok z)
    (h4 : c.jsonLoadsBytes z = .ok (.dict [(.str "schema", .list (S.map PyVal.str)),
                                           (.str "data", .list (R.map PyVal.list))]))
    (hS : S.Nodup) :
    decompress_grid_data c raw =
      .ok (R.map fun row => .dict ((S.map PyVal.str).zip row)) ∧
    (∀ row ∈ R, ((S.map PyVal.str).zip row).length = min S.length row.length) ∧
    ∀ row ∈ R, ∀ (i : Nat) (hi : i < S.length) (hiv : i < row.length),
      dictGet? ((S.map PyVal.str).zip row) (.str (S.get ⟨i, hi⟩)) =
        some (row.get ⟨i, hiv⟩) :=
  ⟨decompress_schema_rows h0 h1 h2 h3 h4 hS,
   fun row hrow => by simp,
   fun row hrow i hi hiv => dictGet?_zipStr hS hi hiv⟩

/-- An error anywhere in a three-stage `Except` chain propagates, no
matter the continuation after the third stage. -/
theorem except_chain_error {α β γ δ : Type} {a : Except String α}
    {f : α → Except String β} {g : β → Except String γ} {e : String}
    (k : γ → Except String δ)
    (h : (a >>= fun x => f x >>= fun v => g v) = .error e) :
    (a >>= fun x => f x >>= fun v => g v >>= fun w => k w) = .error e := by
  rcases a with e1 | x
  · simpa [bind, Except.bind] using h
  · replace h : (f x >>= fun v => g v) = .error e := h
    show (f x >>= fun v => g v >>= fun w => k w) = .error e
    generalize f x = fx at h ⊢
    rcases fx with e2 | v
    · simpa [bind, Except.bind] using h
    · replace h : g v = .error e := h
      show (g v >>= fun w => k w) = .error e
      generalize g v = gv at h ⊢
      rcases gv with e3 | w
      · simpa [bind, Except.bind] using h
      · simp [bind, Except.bind] at h

/-- C3: a failing decode chain inside the recognized double-wrapped
envelope (malformed base64, corrupt compressed bytes, or invalid inner
JSON — whichever stage fails first, `e` being its error) makes the
decoder raise rather than return an empty sequence; the error propagates
out of `scrape_decisions`, is caught in `main` and reported, and the run
exits with status 1 before any state mutation.  By contrast, a
well-formed but unrecognized object shape decodes to the empty sequence
without error. -/
theorem decode_failure_aborts {c : Codecs} {cfg : Config} {stateFile : Option String}
    {notify : String → Except String Unit} {now : String} {raw b e : String}
    {summary : PyVal}
    (h0 : raw ≠ "")
    (h1 : c.jsonLoads raw = .ok (.dict [(.str "compressed", .bool true),
            (.str "data", .dict [(.str "compressed", .bool true), (.str "data", .str b)])]))
    (h2 : (c.b64decode b >>= fun y => c.zlibDecompress y >>= fun z => c.jsonLoadsBytes z)
            = .error e) :
    decompress_grid_data c raw = .error e ∧
    mainRun c cfg (.ok (raw, summary)) stateFile notify now = .scrapeExit e ∧
    ∀ rawU : String, rawU ≠ "" → c.jsonLoads rawU = .ok (.dict [(.str "foo", .int 1)]) →
      decompress_grid_data c rawU = .ok [] := by
  have hdec : decompress_grid_data c raw = .error e := by
    rw [decompress_grid_data]
    simp only [if_neg h0, h1, bind, Except.bind, pure, Except.pure, dictGet?, pyEq_str_str,
               PyVal.truthy, Option.getD, toIterable, String.reduceBEq,
               beq_self_eq_true, Bool.not_true, Bool.not_false, if_true, if_false, reduceIte,
               Bool.false_eq_true, Bool.true_eq_false, eq_self_iff_true]
    exact except_chain_error _ h2
  refine ⟨hdec, ?_, ?_⟩
  · rw [mainRun]
    have hs : scrape_decisions c (.ok (raw, summary)) = .error e := by
      rw [scrape_decisions]
      simp [bind, Except.bind, hdec, pure, Except.pure]
    rw [hs]
  · intro rawU hU0 hU
    rw [decompress_grid_data]
    simp only [if_neg hU0, hU, bind, Except.bind, pure, Except.pure, dictGet?, pyEq_str_str,
               PyVal.truthy, Option.getD, toIterable, String.reduceBEq,
               beq_self_eq_true, Bool.not_true, Bool.not_false, if_true, if_false, reduceIte,
               Bool.false_eq_true, Bool.true_eq_false, eq_self_iff_true]

/-- A concrete codec environment for the decoder claims: `ENV` / `ENVM`
are double-wrapped envelopes over base64 texts `B64` / `B64M`, whose
decode chains resolve to schema/data payloads (rows aligned with the
schema, and one over-long row, respectively); `ENVBAD` wraps undecodable
base64 text `BAD`; `UNREC` is a well-formed but unrecognized object; any
other input raises. -/
def gridCodecs : Codecs where
  jsonLoads := fun s =>
    if s = "ENV" then .ok (.dict [(.str "compressed", .bool true),
      (.str "data", .dict [(.str "compressed", .bool true), (.str "data", .str "B64")])])
    else if s = "ENVM" then .ok (.dict [(.str "compressed", .bool true),
      (.str "data", .dict [(.str "compressed", .bool true), (.str "data", .str "B64M")])])
    else if s = "ENVBAD" then .ok (.dict [(.str "compressed", .bool true),
      (.str "data", .dict [(.str "compressed", .bool true), (.str "data", .str "BAD")])])
    else if s = "UNREC" then .ok (.dict [(.str "foo", .int 1)])
    else .error "json.decoder.JSONDecodeError: Expecting value"
  jsonLoadsBytes := fun bs =>
    if bs = [2] then .ok (.dict [(.str "schema", .list [.str "count", .str "school_name"]),
      (.str "data", .list [.list [.int 3, .str "X"]])])
    else if bs = [11] then .ok (.dict [(.str "schema", .list [.str "count", .str "school_name"]),
      (.str "data", .list [.list [.int 7, .str "Y", .str "EXTRA"]])])
    else .error "json.decoder.JSONDecodeError: invalid payload bytes"
  b64decode := fun s =>
    if s = "B64" then .ok [1]
    else if s = "B64M" then .ok [10]
    else .error "binascii.Error: Invalid base64-encoded string"
  zlibDecompress := fun bs =>
    if bs = [1] then .ok [2]
    else if bs = [10] then .ok [11]
    else .error "zlib.error: Error -3 while decompressing data"

/-- C1 witness: `decode_double_wrapped` at the concrete envelope whose
payload is schema `["count", "school_name"]` with one aligned row. -/
theorem decode_double_wrapped_witness :
    decompress_grid_data gridCodecs "ENV" =
      .ok (([[PyVal.int 3, PyVal.str "X"]] : List (List PyVal)).map fun row =>
        .dict ((["count", "school_name"].map PyVal.str).zip row)) ∧
    (([[PyVal.int 3, PyVal.str "X"]] : List (List PyVal)).map fun row =>
      PyVal.dict ((["count", "school_name"].map PyVal.str).zip row)).length =
      ([[PyVal.int 3, PyVal.str "X"]] : List (List PyVal)).length ∧
    ∀ row ∈ ([[PyVal.int 3, PyVal.str "X"]] : List (List PyVal)),
      ∀ (i : Nat) (hi : i < (["count", "school_name"]).length) (hiv : i < row.length),
      dictGet? ((["count", "school_name"].map PyVal.str).zip row)
          (.str (["count", "school_name"].get ⟨i, hi⟩)) = some (row.get ⟨i, hiv⟩) :=
  @decode_double_wrapped gridCodecs "ENV" "B64" [1] [2] ["count", "school_name"]
    ([[PyVal.int 3, PyVal.str "X"]] : List (List PyVal)) (by decide) rfl rfl rfl rfl (by decide) (by decide)

/-- C10 witness: `decode_zip_truncates` at the concrete envelope whose
single row has three values against a two-name schema. -/
theorem decode_zip_truncates_witness :
    decompress_grid_data gridCodecs "ENVM" =
      .ok (([[PyVal.int 7, PyVal.str "Y", PyVal.str "EXTRA"]] : List (List PyVal)).map fun row =>
        .dict ((["count", "school_name"].map PyVal.str).zip row)) ∧
    (∀ row ∈ ([[PyVal.int 7, PyVal.str "Y", PyVal.str "EXTRA"]] : List (List PyVal)),
      ((["count", "school_name"].map PyVal.str).zip row).length =
        min (["count", "school_name"]).length row.length) ∧
    ∀ row ∈ ([[PyVal.int 7, PyVal.str "Y", PyVal.str "EXTRA"]] : List (List PyVal)),
      ∀ (i : Nat) (hi : i < (["count", "school_name"]).length) (hiv : i < row.length),
      dictGet? ((["count", "school_name"].map PyVal.str).zip row)
          (.str (["count", "school_name"].get ⟨i, hi⟩)) = some (row.get ⟨i, hiv⟩) :=
  @decode_zip_truncates gridCodecs "ENVM" "B64M" [10] [11] ["count", "school_name"]
    ([[PyVal.int 7, PyVal.str "Y", PyVal.str "EXTRA"]] : List (List PyVal)) (by decide) rfl rfl rfl rfl (by decide)

/-- C3 witness: `decode_failure_aborts` at the concrete envelope wrapping
malformed base64 text, and the unrecognized shape `UNREC`. -/
theorem decode_failure_aborts_witness :
    decompress_grid_data gridCodecs "ENVBAD" =
      .error "binascii.Error: Invalid base64-encoded string" ∧
    mainRun gridCodecs cfgNoFilter (.ok ("ENVBAD", .dict [])) Option.none okNotify "t1" =
      .scrapeExit "binascii.Error: Invalid base64-encoded string" ∧
    ∀ rawU : String, rawU ≠ "" →
      gridCodecs.jsonLoads rawU = .ok (.dict [(.str "foo", .int 1)]) →
      decompress_grid_data gridCodecs rawU = .ok [] :=
  @decode_failure_aborts gridCodecs cfgNoFilter Option.none okNotify "t1" "ENVBAD" "BAD"
    "binascii.Error: Invalid base64-encoded string" (.dict []) (by decide) rfl rfl
